import Mathlib

/-!
Shallow embedding of the Livepeer Ethereum client (`eth/client.go`, given as
`src/unnamed/part_000`) and of the transcoder helpers (`src/core/transcoder.go`),
together with theorems settling the frozen claims about this code.

Modelling conventions, shared by all definitions below:
* Go `error` values are modelled by the inductive `EthErr`; distinguished error
  messages of the source get their own constructors, other errors carry a
  numeric code.
* Ethereum objects are modelled by the fields the embedded code actually
  reads: a receipt by its `gasUsed`, a transaction by its hash/handle (a `Nat`),
  a log by an identity and its `Removed` flag.
* Fallible external calls (RPC reads, contract constructors, transaction
  dispatch) are parameters of type `Except EthErr _`: one embedded run is
  evaluated against one fixed behaviour of the node.
* Loops are unfolded with explicit fuel; a result of `none` means the loop is
  still running after that many iterations.
-/

namespace Livepeer

/-- Go `error` values appearing in the embedded code.  The constructors
`txThrew`, `txTimedOut`, `watchTimedOut` and `eventSubTimedOut` are the
errors built by `fmt.Errorf` at `client.go` lines 800, 809, 246 and 388/460;
`rpc`, `registryFail`, `mkFail`, `subscribeFail` and `dispatchFail` stand for
arbitrary error values returned by the node or the contract bindings. -/
inductive EthErr where
  | rpc (code : Nat)
  | registryFail (code : Nat)
  | mkFail (code : Nat)
  | subscribeFail (code : Nat)
  | dispatchFail (code : Nat)
  | txThrew
  | txTimedOut
  | watchTimedOut
  | eventSubTimedOut
  deriving DecidableEq, Repr

/-- Result of one `backend.TransactionReceipt` poll inside
`Client.WaitForReceipt` (`client.go:793`): an RPC error other than
`ethereum.NotFound`, the `NotFound` case (receipt still `nil`), or a found
receipt, modelled by its `GasUsed` field (the only field the code reads). -/
inductive PollResult where
  | rpcErr (code : Nat)
  | notFound
  | found (gasUsed : Nat)
  deriving DecidableEq, Repr

/-- `Client.WaitForReceipt` (`client.go:789-810`).  The Go loop guard is
`time.Since(time.Now()) < c.eventTimeout`: the elapsed time between the two
immediately adjacent monotonic clock reads is modelled as zero, so the guard
is `0 < eventTimeout` on every iteration.  `gasLimit` is `tx.Gas()`,
`node k` is the result of the receipt poll on iteration `k`, and `fuel`
bounds how many iterations are unfolded (`none` = the loop is still running
after `fuel` iterations).  A found receipt with `gasUsed` equal to the gas
limit yields the `txThrew` error; otherwise the receipt (its `gasUsed`) is
returned.  Leaving the loop yields the `txTimedOut` error. -/
def waitForReceipt (eventTimeout : Int) (gasLimit : Nat) (node : Nat → PollResult) :
    Nat → Nat → Option (Except EthErr Nat)
  | _, 0 => none
  | k, fuel + 1 =>
    if (0 : Int) < eventTimeout then
      match node k with
      | .rpcErr e => some (.error (.rpc e))
      | .found g => if gasLimit = g then some (.error .txThrew) else some (.ok g)
      | .notFound => waitForReceipt eventTimeout gasLimit node (k + 1) fuel
    else
      some (.error .txTimedOut)

/-- An Ethereum log as used by the embedded code: an identity plus its
`Removed` (reorg/retraction) flag. -/
structure Log where
  id : Nat
  removed : Bool
  deriving DecidableEq, Repr

/-- One delivery visible to the select loop of `Client.WatchEvent`
(`client.go:239-251`): either a log arriving on `logsCh` or the firing of
the timeout timer (created once, before the loop, at `client.go:236`). -/
inductive WatchStep where
  | log (l : Log)
  | timerFired
  deriving DecidableEq, Repr

/-- `Client.WatchEvent` (`client.go:234-252`) evaluated against the sequence
of deliveries its select loop observes.  A non-removed log is returned; a
removed log is skipped and the loop continues (the timer is not recreated);
the timer firing yields the `watchTimedOut` error.  `none` means the loop is
still blocked (no further delivery occurred). -/
def watchEvent : List WatchStep → Option (Except EthErr Log)
  | [] => none
  | .log l :: rest => if l.removed then watchEvent rest else some (.ok l)
  | .timerFired :: _ => some (.error .watchTimedOut)

/-- The manager-binding fields of the `Client` struct (`client.go:66-84`)
touched by `SetManagers`: per manager role, the resolved contract address
(Go zero value `0` before assignment) and the constructed session
(a `nil` pointer, i.e. `none`, before assignment; the session is modelled by
the address it was built from). -/
structure ClientState where
  bondingManagerAddr : Nat
  bondingManagerSession : Option Nat
  jobsManagerAddr : Nat
  jobsManagerSession : Option Nat
  roundsManagerAddr : Nat
  roundsManagerSession : Option Nat
  deriving DecidableEq, Repr

/-- The three manager roles re-resolved by `Client.SetManagers`
(`client.go:132-193`), in the order the code processes them. -/
inductive Role where
  | bonding
  | jobs
  | rounds
  deriving DecidableEq, Repr

/-- Address field of a role in a `ClientState`. -/
def ClientState.addrOf (c : ClientState) : Role → Nat
  | .bonding => c.bondingManagerAddr
  | .jobs => c.jobsManagerAddr
  | .rounds => c.roundsManagerAddr

/-- Session field of a role in a `ClientState`. -/
def ClientState.sessionOf (c : ClientState) : Role → Option Nat
  | .bonding => c.bondingManagerSession
  | .jobs => c.jobsManagerSession
  | .rounds => c.roundsManagerSession

/-- `Client.SetManagers` (`client.go:132-193`).  `reg r` is the
`protocolSession.Registry` lookup for role `r`, `mk r a` the corresponding
`contracts.NewXManager(a, backend)` constructor.  The Go method mutates the
receiver field by field, in the order: bonding address, bonding session,
jobs address, jobs session, rounds address, rounds session, returning the
first error encountered; the returned pair is the state of the receiver
after the call together with the returned error (`none` = success). -/
def setManagers (reg : Role → Except EthErr Nat) (mk : Role → Nat → Except EthErr Nat)
    (c : ClientState) : ClientState × Option EthErr :=
  match reg .bonding with
  | .error e => (c, some e)
  | .ok ba =>
    let c1 := { c with bondingManagerAddr := ba }
    match mk .bonding ba with
    | .error e => (c1, some e)
    | .ok bs =>
      let c2 := { c1 with bondingManagerSession := some bs }
      match reg .jobs with
      | .error e => (c2, some e)
      | .ok ja =>
        let c3 := { c2 with jobsManagerAddr := ja }
        match mk .jobs ja with
        | .error e => (c3, some e)
        | .ok js =>
          let c4 := { c3 with jobsManagerSession := some js }
          match reg .rounds with
          | .error e => (c4, some e)
          | .ok ra =>
            let c5 := { c4 with roundsManagerAddr := ra }
            match mk .rounds ra with
            | .error e => (c5, some e)
            | .ok rs => ({ c5 with roundsManagerSession := some rs }, none)

/-- Manager fields of a freshly constructed `Client` (`client.go:106-123`):
Go zero values, no sessions. -/
def initialClientState : ClientState :=
  ⟨0, none, 0, none, 0, none⟩

/-- `NewClient` (`client.go:86-130`), restricted to the manager-binding
state.  `topts`, `tok` and `prot` are the results of
`NewTransactOptsForAccount`, `contracts.NewLivepeerToken` and
`contracts.NewLivepeerProtocol`; each failure is returned immediately.
Otherwise the client is built, `client.SetManagers()` is called with its
returned error discarded (`client.go:127`), and `(client, nil)` is
returned. -/
def newClient (topts tok prot : Except EthErr Unit)
    (reg : Role → Except EthErr Nat) (mk : Role → Nat → Except EthErr Nat) :
    Except EthErr ClientState :=
  match topts with
  | .error e => .error e
  | .ok _ =>
    match tok with
    | .error e => .error e
    | .ok _ =>
      match prot with
      | .error e => .error e
      | .ok _ => .ok (setManagers reg mk initialClientState).1

/-- A value sent on one of the two result channels of a lifecycle
operation: one receipt (its `gasUsed`, see `waitForReceipt`) or one error. -/
inductive Outcome where
  | receipt (r : Nat)
  | failure (e : EthErr)
  deriving DecidableEq, Repr

/-- Goroutine body shared by the simple lifecycle operations
(`InitializeRound`, `Transcoder`, `Reward`, `Job`, `ClaimWork`, `Verify`,
`DistributeFees`, `Transfer`; e.g. `client.go:294-321`): dispatch the
transaction (`submit`), on failure send the error, otherwise wait for the
receipt (`wait tx`, the result of a terminating `WaitForReceipt` run) and
send the receipt or the error.  The returned list is the sequence of values
sent on the two result channels before they are closed. -/
def simpleOpEmits (submit : Except EthErr Nat) (wait : Nat → Except EthErr Nat) :
    List Outcome :=
  match submit with
  | .error e => [.failure e]
  | .ok tx =>
    match wait tx with
    | .error e => [.failure e]
    | .ok r => [.receipt r]

/-- How a call to `Client.Approve` (`client.go:613-646`) behaves for its
caller.  `blocked`: the caller is stuck forever inside `Approve` on the
unbuffered send `outErr <- err` — at that point no goroutine holds the
receive side, since the consumer goroutine of `Bond`/`Deposit` is only
started after `Approve` returns.  `forwards l`: `Approve` returned its
channels and its goroutine forwards the first log delivered by the
subscription (`l = none` when no log is delivered before the caller stops
listening). -/
inductive ApproveOutcome where
  | blocked
  | forwards (firstLog : Option Log)
  deriving DecidableEq, Repr

/-- `Client.Approve` (`client.go:613-646`).  `subRes` is the result of
`SubscribeToApproval` (`client.go:617`), `grantRes` the result of the
`tokenSession.Approve` dispatch (`client.go:625`), `firstLog` the first log
the subscription delivers (if any).  Both error paths perform
`outErr <- err` on the unbuffered, not-yet-consumed error channel and hence
block the caller. -/
def approve (subRes grantRes : Except EthErr Unit) (firstLog : Option Log) :
    ApproveOutcome :=
  match subRes with
  | .error _ => .blocked
  | .ok _ =>
    match grantRes with
    | .error _ => .blocked
    | .ok _ => .forwards firstLog

/-- Externally visible node interactions of `Client.Approve`, in program
order: opening the approval-event subscription (`client.go:617`) and
dispatching the allowance-grant transaction (`client.go:625`). -/
inductive EthAction where
  | subscribeApproval
  | submitGrant
  deriving DecidableEq, Repr

/-- The sequence of node interactions one `Client.Approve` call performs:
the subscription attempt always comes first; the grant dispatch is reached
only when the subscription attempt succeeded (on subscription failure the
caller blocks on `outErr <- err` at `client.go:619` before line 625). -/
def approveActions (subRes : Except EthErr Unit) : List EthAction :=
  EthAction.subscribeApproval ::
    (match subRes with
     | .error _ => []
     | .ok _ => [EthAction.submitGrant])

/-- Result of one `Client.Bond` (`client.go:353-394`) or `Client.Deposit`
(`client.go:425-466`) run.  `blocked`: the call never returns (stuck inside
`Approve`).  `emits outs dep`: the handle was returned, `outs` is the
sequence of values sent on the two result channels before both are closed,
and `dep` records whether the dependent transaction dispatch
(`bondingManagerSession.Bond` / `jobsManagerSession.Deposit`) was invoked. -/
inductive BondResult where
  | blocked
  | emits (outs : List Outcome) (depSubmitted : Bool)
  deriving DecidableEq, Repr

/-- `Client.Bond` (`client.go:353-394`); `Client.Deposit` is structurally
identical.  `firstLog` is the first value delivered on the approval channel
before the `eventTimeout` timer fires (`none` when the timer fires first).
On a removed (retracted) log the select case body is skipped and the
goroutine returns, closing both channels with nothing sent
(`client.go:365-383`).  The `inErr` select case never fires: `Approve` only
sends on its error channel from the paths on which the caller is already
blocked inside `Approve`. -/
def bond (subRes grantRes : Except EthErr Unit) (firstLog : Option Log)
    (depDispatch : Except EthErr Nat) (wait : Nat → Except EthErr Nat) : BondResult :=
  match approve subRes grantRes firstLog with
  | .blocked => .blocked
  | .forwards none => .emits [.failure .eventSubTimedOut] false
  | .forwards (some l) =>
    if l.removed then
      .emits [] false
    else
      match depDispatch with
      | .error e => .emits [.failure e] true
      | .ok tx =>
        match wait tx with
        | .error e => .emits [.failure e] true
        | .ok r => .emits [.receipt r] true

/-- A Go error value in the transcoder package: an arbitrary pre-existing
error (numeric code) or the error built by
`errors.New("unrecoverable transcoding failure")` at `transcoder.go:406`. -/
inductive GoError where
  | code (n : Nat)
  | genericUnrecoverableFailure
  deriving DecidableEq, Repr

/-- A Go panic value, as inspected by the `r.(error)` type assertion at
`transcoder.go:404`: either a value that is an `error`, or any other
value. -/
inductive PanicVal where
  | errVal (e : GoError)
  | nonErrVal (v : Nat)
  deriving DecidableEq, Repr

/-- How the body of a `Transcode` call (everything after the
`defer recoverFromPanic(&retErr)`) ends: normal return of transcode data
(modelled by a `Nat`), normal return of an error, or a panic. -/
inductive BodyResult where
  | ok (td : Nat)
  | err (e : GoError)
  | panicked (p : PanicVal)
  deriving DecidableEq, Repr

/-- An error returned by `Transcode`: either a plain error returned by the
body, or the `UnrecoverableError` wrapper (`transcoder.go:31-37`) around the
error installed by `recoverFromPanic`. -/
inductive TranscodeErr where
  | plain (e : GoError)
  | unrecoverable (e : GoError)
  deriving DecidableEq, Repr

/-- `recoverFromPanic` (`transcoder.go:402-410`) acting on a recovered
panic value: an `error` panic value is wrapped as `UnrecoverableError`
directly; any other panic value is replaced by
`errors.New("unrecoverable transcoding failure")` before wrapping. -/
def recoverFromPanic : PanicVal → TranscodeErr
  | .errVal e => .unrecoverable e
  | .nonErrVal _ => .unrecoverable .genericUnrecoverableFailure

/-- What a `Transcode` call does to its caller: returns a value through the
normal `(td, err)` results, or propagates a panic up the stack. -/
inductive TranscodeResult where
  | returned (r : Except TranscodeErr Nat)
  | propagatedPanic (p : PanicVal)
  deriving Repr

/-- `LocalTranscoder.Transcode` (`transcoder.go:41-73`): the deferred
`recoverFromPanic(&retErr)` catches every panic of the body and installs the
wrapped error in the named return value `retErr`; normal returns pass
through unchanged. -/
def localTranscoderTranscode (body : BodyResult) : TranscodeResult :=
  match body with
  | .ok td => .returned (.ok td)
  | .err e => .returned (.error (.plain e))
  | .panicked p => .returned (.error (recoverFromPanic p))

/-- `NvidiaTranscoder.Transcode` (`transcoder.go:84-116`): same deferred
recovery structure as `LocalTranscoder.Transcode`. -/
def nvidiaTranscoderTranscode (body : BodyResult) : TranscodeResult :=
  match body with
  | .ok td => .returned (.ok td)
  | .err e => .returned (.error (.plain e))
  | .panicked p => .returned (.error (recoverFromPanic p))

/-- `strings.Split(s, sep)` for a one-character separator, on strings
modelled as `List Char`: Go's `Split` with a non-empty separator returns
the subslices between separator occurrences, and `[""]` for the empty
string. -/
def splitOnChar (sep : Char) : List Char → List (List Char)
  | [] => [[]]
  | c :: rest =>
    let r := splitOnChar sep rest
    if c = sep then [] :: r
    else
      match r with
      | [] => [[c]]
      | h :: t => (c :: h) :: t

/-- The two failure modes of `strconv.ParseUint(s, 10, 64)` as used at
`transcoder.go:318`: a syntax error (empty input or a non-digit character)
or a range error (value does not fit in 64 bits). -/
inductive NumErr where
  | invalidDigits
  | valueOutOfRange
  deriving DecidableEq, Repr

/-- `strconv.ParseUint(s, 10, 64)`: succeeds exactly on a non-empty string
of decimal digits whose value fits in an unsigned 64-bit integer, returning
that value. -/
def parseUint64 (s : List Char) : Except NumErr Nat :=
  if s = [] then .error .invalidDigits
  else if s.all Char.isDigit then
    let n := s.foldl (fun acc c => acc * 10 + (c.toNat - 48)) 0
    if n < 2 ^ 64 then .ok n else .error .valueOutOfRange
  else .error .invalidDigits

/-- An error returned by `parseURI`: the `fmt.Errorf("BadURI")` at
`transcoder.go:314`, or the `strconv.ParseUint` error propagated at
`transcoder.go:319`. -/
inductive URIErr where
  | badURI
  | numError (e : NumErr)
  deriving DecidableEq, Repr

/-- `parseURI` (`transcoder.go:309-320`) on strings modelled as `List Char`:
split on `/`; fewer than three parts is `BadURI`; otherwise the manifest id
is the second-to-last part and the sequence number is parsed from the
portion of the last part before the first `.`.  The Go function returns
`(mid, seqNo, err)` with callers checking `err`; the embedding returns the
pair on success and the error otherwise. -/
def parseURI (uri : List Char) : Except URIErr (List Char × Nat) :=
  let parts := splitOnChar '/' uri
  if parts.length < 3 then .error .badURI
  else
    let mid := (parts.get? (parts.length - 2)).getD []
    let lastPart := (parts.get? (parts.length - 1)).getD []
    let segParts := splitOnChar '.' lastPart
    match parseUint64 ((segParts.get? 0).getD []) with
    | .error e => .error (.numError e)
    | .ok n => .ok (mid, n)

/-- Concrete registry behaviour: the BondingManager lookup succeeds with a
new address, the JobsManager lookup fails. -/
def regJobsLookupFails : Role → Except EthErr Nat
  | .bonding => .ok 2
  | .jobs => .error (.registryFail 7)
  | .rounds => .ok 9

/-- Concrete manager-constructor behaviour: always succeeds. -/
def mkAlwaysOk : Role → Nat → Except EthErr Nat :=
  fun _ a => .ok a

/-- A previously active binding set (all roles resolved to address 1). -/
def staleBindings : ClientState :=
  ⟨1, some 1, 1, some 1, 1, some 1⟩

instance {ε α : Type} [DecidableEq ε] [DecidableEq α] : DecidableEq (Except ε α) :=
  fun a b =>
    match a, b with
    | .ok x, .ok y =>
      if h : x = y then .isTrue (by rw [h]) else .isFalse (by intro hc; cases hc; exact h rfl)
    | .error x, .error y =>
      if h : x = y then .isTrue (by rw [h]) else .isFalse (by intro hc; cases hc; exact h rfl)
    | .ok _, .error _ => .isFalse (by intro hc; cases hc)
    | .error _, .ok _ => .isFalse (by intro hc; cases hc)

/-- Helper for C5: no terminating run of the confirmation loop ever returns
a receipt whose `gasUsed` equals the gas limit. -/
lemma waitForReceipt_ok_ne_gasLimit (T : Int) (gl : Nat) (node : Nat → PollResult) :
    ∀ fuel k g, waitForReceipt T gl node k fuel = some (Except.ok g) → gl ≠ g := by
  intro fuel
  induction fuel with
  | zero =>
    intro k g h
    simp [waitForReceipt] at h
  | succ n ih =>
    intro k g h
    rw [waitForReceipt] at h
    by_cases hT : (0 : Int) < T
    · rw [if_pos hT] at h
      cases hnode : node k with
      | rpcErr e => rw [hnode] at h; simp at h
      | notFound => rw [hnode] at h; exact ih (k + 1) g h
      | found gu =>
        rw [hnode] at h
        dsimp only at h
        by_cases hg : gl = gu
        · rw [if_pos hg] at h; simp at h
        · rw [if_neg hg] at h
          simp only [Option.some.injEq, Except.ok.injEq] at h
          subst h; exact hg
    · rw [if_neg hT] at h; simp at h

/-- C1: the claim says that for every confirmation timeout T > 0 and a node
that never produces a receipt, `WaitForReceipt` terminates with the timeout
error no earlier than T and no later than T plus one polling interval.  The
code's loop guard is `time.Since(time.Now()) < c.eventTimeout`, which
re-measures an elapsed time of zero on every iteration, so for every T > 0
the loop never exits: after any number of iterations the run is still going
(`none`), and the timeout error is never returned. -/
theorem C1_waitForReceipt_never_times_out (T : Int) (hT : 0 < T) (gl : Nat)
    (fuel k : Nat) :
    waitForReceipt T gl (fun _ => PollResult.notFound) k fuel = none := by
  induction fuel generalizing k with
  | zero => rfl
  | succ n ih =>
    rw [waitForReceipt, if_pos hT]
    exact ih (k + 1)

/-- Witness for C1 at T = 1, gas limit 21000, 30 unfolded iterations. -/
theorem C1_waitForReceipt_never_times_out_witness :
    (0 : Int) < 1 ∧
      waitForReceipt 1 21000 (fun _ => PollResult.notFound) 0 30 = none :=
  ⟨by decide, C1_waitForReceipt_never_times_out 1 (by decide) 21000 30 0⟩

/-- C5: a found receipt is classified by gas: no run ever returns a receipt
whose `gasUsed` equals the transaction's gas limit (that case is turned
into the on-chain-revert error `txThrew`), and when the node reports a
receipt with gas `g` on the first poll the run returns the `txThrew` error
if `g` equals the gas limit and the receipt otherwise. -/
theorem C5_receipt_classified_by_gas (T : Int) (gl : Nat) (node : Nat → PollResult) :
    (∀ fuel k g, waitForReceipt T gl node k fuel = some (Except.ok g) → gl ≠ g) ∧
    (∀ g, 0 < T → node 0 = PollResult.found g →
      waitForReceipt T gl node 0 1 =
        some (if gl = g then Except.error EthErr.txThrew else Except.ok g)) := by
  refine ⟨waitForReceipt_ok_ne_gasLimit T gl node, ?_⟩
  intro g hT h0
  rw [waitForReceipt, if_pos hT, h0]
  dsimp only
  by_cases hg : gl = g
  · rw [if_pos hg, if_pos hg]
  · rw [if_neg hg, if_neg hg]

/-- Witness for C5: a first-poll receipt with `gasUsed = gasLimit = 21000`
is classified as the on-chain-revert error, and one with
`gasUsed = 100 ≠ 21000` is returned as confirmed. -/
theorem C5_receipt_classified_by_gas_witness :
    waitForReceipt 1 21000 (fun _ => PollResult.found 21000) 0 1 =
        some (Except.error EthErr.txThrew) ∧
      waitForReceipt 1 21000 (fun _ => PollResult.found 100) 0 1 =
        some (Except.ok 100) := by
  constructor
  · have h := (C5_receipt_classified_by_gas 1 21000 (fun _ => PollResult.found 21000)).2
      21000 (by decide) rfl
    simpa using h
  · have h := (C5_receipt_classified_by_gas 1 21000 (fun _ => PollResult.found 100)).2
      100 (by decide) rfl
    simpa using h

/-- Helper for C6: a returned log never has its removed flag set. -/
lemma watchEvent_ok_not_removed :
    ∀ steps l, watchEvent steps = some (Except.ok l) → l.removed = false := by
  intro steps
  induction steps with
  | nil => intro l h; simp [watchEvent] at h
  | cons s rest ih =>
    intro l h
    cases s with
    | timerFired => simp [watchEvent] at h
    | log l2 =>
      by_cases hrem : l2.removed
      · rw [watchEvent, if_pos hrem] at h
        exact ih l h
      · rw [watchEvent, if_neg hrem] at h
        simp only [Option.some.injEq, Except.ok.injEq] at h
        subst h
        exact Bool.eq_false_iff.mpr hrem

/-- C6: `WatchEvent` never returns a retracted log; retracted logs are
skipped without restarting the (single) timer and waiting continues; the
sequence [retracted, retracted, valid] yields the valid log; and if the
timer fires after only retracted logs, the timeout error is returned. -/
theorem C6_watchEvent_skips_removed (steps : List WatchStep) :
    (∀ l, watchEvent steps = some (Except.ok l) → l.removed = false) ∧
    (watchEvent
        [WatchStep.log ⟨1, true⟩, WatchStep.log ⟨2, true⟩, WatchStep.log ⟨3, false⟩] =
      some (Except.ok ⟨3, false⟩)) ∧
    (∀ pre post, (∀ s ∈ pre, ∃ l, s = WatchStep.log l ∧ l.removed = true) →
      watchEvent (pre ++ WatchStep.timerFired :: post) =
        some (Except.error EthErr.watchTimedOut)) := by
  refine ⟨watchEvent_ok_not_removed steps, by rfl, ?_⟩
  intro pre
  induction pre with
  | nil => intro post _; rfl
  | cons s rest ih =>
    intro post hall
    rcases hall s (List.mem_cons_self s rest) with ⟨l, hs, hrem⟩
    subst hs
    rw [List.cons_append, watchEvent, if_pos hrem]
    exact ih post (fun t ht => hall t (List.mem_cons_of_mem _ ht))

/-- Witness for C6: one retracted log then the timer firing yields the
timeout error. -/
theorem C6_watchEvent_skips_removed_witness :
    watchEvent [WatchStep.log ⟨1, true⟩, WatchStep.timerFired] =
      some (Except.error EthErr.watchTimedOut) :=
  (C6_watchEvent_skips_removed []).2.2 [WatchStep.log ⟨1, true⟩] []
    (by
      intro s hs
      simp only [List.mem_singleton] at hs
      exact ⟨⟨1, true⟩, hs, rfl⟩)

/-- C4 counterexample: the claim says a resolution failure for any single
role leaves the previously active binding set unchanged and that a mixed
old/new state is never observable.  With a previously active binding set
(all fields 1), a registry in which the BondingManager lookup returns the
new address 2 and the JobsManager lookup fails, `SetManagers` returns the
error but the receiver now holds the new BondingManager address and session
next to the old JobsManager and RoundsManager bindings: a mixed state. -/
theorem C4_setManagers_not_atomic_counterexample :
    (setManagers regJobsLookupFails mkAlwaysOk staleBindings).2 =
        some (EthErr.registryFail 7) ∧
      (setManagers regJobsLookupFails mkAlwaysOk staleBindings).1 ≠ staleBindings ∧
      (setManagers regJobsLookupFails mkAlwaysOk staleBindings).1.bondingManagerAddr = 2 ∧
      (setManagers regJobsLookupFails mkAlwaysOk staleBindings).1.jobsManagerAddr = 1 := by
  refine ⟨rfl, ?_, rfl, rfl⟩
  intro h
  have h2 : (setManagers regJobsLookupFails mkAlwaysOk staleBindings).1.bondingManagerAddr =
      staleBindings.bondingManagerAddr := by rw [h]
  simp [setManagers, regJobsLookupFails, mkAlwaysOk, staleBindings] at h2

/-- C4 amended: contract-binding re-resolution is sequential, not
all-or-nothing.  Roles are processed in the order BondingManager,
JobsManager, RoundsManager, and each address/session is assigned as soon as
it is obtained; the first failure aborts with that error, leaving the
already-assigned (new) bindings in place next to the not-yet-reached (old)
ones.  The seven conjuncts characterise `SetManagers` at each failure point
and on success. -/
theorem C4_setManagers_sequential_prefix_update
    (reg : Role → Except EthErr Nat) (mk : Role → Nat → Except EthErr Nat)
    (c : ClientState) :
    (∀ e, reg .bonding = .error e → setManagers reg mk c = (c, some e)) ∧
    (∀ ba e, reg .bonding = .ok ba → mk .bonding ba = .error e →
      setManagers reg mk c = ({ c with bondingManagerAddr := ba }, some e)) ∧
    (∀ ba bs e, reg .bonding = .ok ba → mk .bonding ba = .ok bs →
      reg .jobs = .error e →
      setManagers reg mk c =
        ({ c with bondingManagerAddr := ba, bondingManagerSession := some bs },
          some e)) ∧
    (∀ ba bs ja e, reg .bonding = .ok ba → mk .bonding ba = .ok bs →
      reg .jobs = .ok ja → mk .jobs ja = .error e →
      setManagers reg mk c =
        ({ c with
            bondingManagerAddr := ba
            bondingManagerSession := some bs
            jobsManagerAddr := ja }, some e)) ∧
    (∀ ba bs ja js e, reg .bonding = .ok ba → mk .bonding ba = .ok bs →
      reg .jobs = .ok ja → mk .jobs ja = .ok js → reg .rounds = .error e →
      setManagers reg mk c =
        ({ c with
            bondingManagerAddr := ba
            bondingManagerSession := some bs
            jobsManagerAddr := ja
            jobsManagerSession := some js }, some e)) ∧
    (∀ ba bs ja js ra e, reg .bonding = .ok ba → mk .bonding ba = .ok bs →
      reg .jobs = .ok ja → mk .jobs ja = .ok js → reg .rounds = .ok ra →
      mk .rounds ra = .error e →
      setManagers reg mk c =
        ({ c with
            bondingManagerAddr := ba
            bondingManagerSession := some bs
            jobsManagerAddr := ja
            jobsManagerSession := some js
            roundsManagerAddr := ra }, some e)) ∧
    (∀ ba bs ja js ra rs, reg .bonding = .ok ba → mk .bonding ba = .ok bs →
      reg .jobs = .ok ja → mk .jobs ja = .ok js → reg .rounds = .ok ra →
      mk .rounds ra = .ok rs →
      setManagers reg mk c =
        ({ bondingManagerAddr := ba
           bondingManagerSession := some bs
           jobsManagerAddr := ja
           jobsManagerSession := some js
           roundsManagerAddr := ra
           roundsManagerSession := some rs }, none)) := by
  refine ⟨?_, ?_, ?_, ?_, ?_, ?_, ?_⟩
  · intro e h1
    simp [setManagers, h1]
  · intro ba e h1 h2
    simp [setManagers, h1, h2]
  · intro ba bs e h1 h2 h3
    simp [setManagers, h1, h2, h3]
  · intro ba bs ja e h1 h2 h3 h4
    simp [setManagers, h1, h2, h3, h4]
  · intro ba bs ja js e h1 h2 h3 h4 h5
    simp [setManagers, h1, h2, h3, h4, h5]
  · intro ba bs ja js ra e h1 h2 h3 h4 h5 h6
    simp [setManagers, h1, h2, h3, h4, h5, h6]
  · intro ba bs ja js ra rs h1 h2 h3 h4 h5 h6
    simp [setManagers, h1, h2, h3, h4, h5, h6]

/-- Witness for the amended C4 at a concrete registry failing on the
JobsManager lookup: the bonding binding is already replaced, the error is
returned. -/
theorem C4_setManagers_sequential_prefix_update_witness :
    setManagers regJobsLookupFails mkAlwaysOk staleBindings =
      ({ staleBindings with bondingManagerAddr := 2, bondingManagerSession := some 2 },
        some (EthErr.registryFail 7)) :=
  (C4_setManagers_sequential_prefix_update regJobsLookupFails mkAlwaysOk
      staleBindings).2.2.1 2 2 (EthErr.registryFail 7) rfl rfl rfl

/-- Helper for C9: the address and session fields of a role whose registry
lookup fails are left untouched by `SetManagers`. -/
lemma setManagers_failed_role_untouched
    (reg : Role → Except EthErr Nat) (mk : Role → Nat → Except EthErr Nat)
    (c : ClientState) (r : Role) (e : EthErr) (hr : reg r = .error e) :
    (setManagers reg mk c).1.addrOf r = c.addrOf r ∧
      (setManagers reg mk c).1.sessionOf r = c.sessionOf r := by
  cases r with
  | bonding =>
    simp [setManagers, hr, ClientState.addrOf, ClientState.sessionOf]
  | jobs =>
    cases hb : reg .bonding with
    | error eb => simp [setManagers, hb, ClientState.addrOf, ClientState.sessionOf]
    | ok ab =>
      cases hmb : mk .bonding ab with
      | error emb => simp [setManagers, hb, hmb, ClientState.addrOf, ClientState.sessionOf]
      | ok sb => simp [setManagers, hb, hmb, hr, ClientState.addrOf, ClientState.sessionOf]
  | rounds =>
    cases hb : reg .bonding with
    | error eb => simp [setManagers, hb, ClientState.addrOf, ClientState.sessionOf]
    | ok ab =>
      cases hmb : mk .bonding ab with
      | error emb => simp [setManagers, hb, hmb, ClientState.addrOf, ClientState.sessionOf]
      | ok sb =>
        cases hj : reg .jobs with
        | error ej =>
          simp [setManagers, hb, hmb, hj, ClientState.addrOf, ClientState.sessionOf]
        | ok aj =>
          cases hmj : mk .jobs aj with
          | error emj =>
            simp [setManagers, hb, hmb, hj, hmj, ClientState.addrOf,
              ClientState.sessionOf]
          | ok sj =>
            simp [setManagers, hb, hmb, hj, hmj, hr, ClientState.addrOf,
              ClientState.sessionOf]

/-- C9: when construction of the transact options, token and protocol
handles succeeds, `NewClient` discards the result of the initial
`SetManagers` call: even if the registry lookup for a manager role fails,
it returns a client and a nil error, and the failed role's address and
session are left unset (zero address, no session). -/
theorem C9_newClient_ignores_setManagers_failure
    (reg : Role → Except EthErr Nat) (mk : Role → Nat → Except EthErr Nat)
    (r : Role) (e : EthErr) (hr : reg r = .error e) :
    ∃ c, newClient (.ok ()) (.ok ()) (.ok ()) reg mk = .ok c ∧
      c.addrOf r = 0 ∧ c.sessionOf r = none := by
  refine ⟨(setManagers reg mk initialClientState).1, rfl, ?_, ?_⟩
  · rw [(setManagers_failed_role_untouched reg mk initialClientState r e hr).1]
    cases r <;> rfl
  · rw [(setManagers_failed_role_untouched reg mk initialClientState r e hr).2]
    cases r <;> rfl

/-- Witness for C9 at the concrete registry whose JobsManager lookup
fails. -/
theorem C9_newClient_ignores_setManagers_failure_witness :
    ∃ c, newClient (.ok ()) (.ok ()) (.ok ()) regJobsLookupFails mkAlwaysOk = .ok c ∧
      c.addrOf .jobs = 0 ∧ c.sessionOf .jobs = none :=
  C9_newClient_ignores_setManagers_failure regJobsLookupFails mkAlwaysOk .jobs
    (EthErr.registryFail 7) rfl

/-- C2 counterexample: the claim says every lifecycle operation's handle
yields exactly one outcome, never zero.  In `Bond` (and `Deposit`), when
the subscription and the grant dispatch succeed but the first approval log
delivered is retracted (`Removed = true`), the select-case body is skipped
and the goroutine returns, closing both result channels with nothing sent:
zero outcomes. -/
theorem C2_bond_zero_outcomes_counterexample :
    bond (.ok ()) (.ok ()) (some ⟨5, true⟩) (.ok 0) (fun _ => .ok 0) =
      BondResult.emits [] false := rfl

/-- C2 amended: every lifecycle operation sends at most one outcome on its
result channels, never both a receipt and an error.  The simple operations
send exactly one (for any behaviour under which the confirmation wait
returns).  `Bond`/`Deposit` send exactly one when the approval chain
completes (non-retracted first approval log) or times out before a log
arrives, but send zero outcomes when the first delivered approval log is
retracted — and on subscription/grant-dispatch failure the call blocks and
no handle usable this way is produced at all (see C3). -/
theorem C2_at_most_one_outcome
    (submit : Except EthErr Nat) (wait : Nat → Except EthErr Nat)
    (subRes grantRes : Except EthErr Unit) (firstLog : Option Log)
    (dep : Except EthErr Nat) :
    (simpleOpEmits submit wait).length = 1 ∧
    (∀ outs d, bond subRes grantRes firstLog dep wait = .emits outs d →
      outs.length ≤ 1) ∧
    (∀ l, firstLog = some l → l.removed = false → subRes = .ok () →
      grantRes = .ok () →
      ∃ out d, bond subRes grantRes firstLog dep wait = .emits [out] d) ∧
    (firstLog = none → subRes = .ok () → grantRes = .ok () →
      bond subRes grantRes firstLog dep wait =
        .emits [.failure .eventSubTimedOut] false) := by
  refine ⟨?_, ?_, ?_, ?_⟩
  · cases submit with
    | error e => rfl
    | ok tx => cases h : wait tx <;> simp [simpleOpEmits, h]
  · intro outs d h
    cases subRes with
    | error e => simp [bond, approve] at h
    | ok u =>
      cases grantRes with
      | error e => simp [bond, approve] at h
      | ok u2 =>
        cases firstLog with
        | none =>
          simp [bond, approve] at h
          obtain ⟨h1, h2⟩ := h
          subst h1
          simp
        | some l =>
          by_cases hrem : l.removed
          · simp [bond, approve, hrem] at h
            obtain ⟨h1, h2⟩ := h
            subst h1
            simp
          · cases dep with
            | error e =>
              simp [bond, approve, hrem] at h
              obtain ⟨h1, h2⟩ := h
              subst h1
              simp
            | ok tx =>
              cases hw : wait tx with
              | error e =>
                simp [bond, approve, hrem, hw] at h
                obtain ⟨h1, h2⟩ := h
                subst h1
                simp
              | ok r =>
                simp [bond, approve, hrem, hw] at h
                obtain ⟨h1, h2⟩ := h
                subst h1
                simp
  · intro l hl hrem hs hg
    subst hl; subst hs; subst hg
    cases dep with
    | error e => exact ⟨.failure e, true, by simp [bond, approve, hrem]⟩
    | ok tx =>
      cases hw : wait tx with
      | error e => exact ⟨.failure e, true, by simp [bond, approve, hrem, hw]⟩
      | ok r => exact ⟨.receipt r, true, by simp [bond, approve, hrem, hw]⟩
  · intro hl hs hg
    subst hl; subst hs; subst hg
    rfl

/-- Witness for the amended C2: a successful approval chain yields exactly
one outcome. -/
theorem C2_at_most_one_outcome_witness :
    ∃ out d, bond (.ok ()) (.ok ()) (some ⟨1, false⟩) (.ok 4) (fun _ => .ok 9) =
      BondResult.emits [out] d :=
  (C2_at_most_one_outcome (.ok 0) (fun _ => .ok 9) (.ok ()) (.ok ())
      (some ⟨1, false⟩) (.ok 4)).2.2.1 ⟨1, false⟩ rfl rfl rfl rfl

/-- C3: the claim says that when the grant submission fails, the failure is
returned to the caller (and the dependent transaction is never submitted).
In the code, both `Approve` error paths perform `outErr <- err` on an
unbuffered channel before `Bond`/`Deposit` start the only goroutine that
could receive from it, so the caller blocks forever inside `Approve`: the
dependent transaction is indeed never dispatched, but no error is ever
delivered (and the result channels are never even returned). -/
theorem C3_grant_dispatch_failure_blocks_caller :
    bond (.ok ()) (.error (.dispatchFail 3)) none (.ok 0) (fun _ => .ok 0) =
        BondResult.blocked ∧
      bond (.error (.subscribeFail 4)) (.ok ()) none (.ok 0) (fun _ => .ok 0) =
        BondResult.blocked :=
  ⟨rfl, rfl⟩

/-- C7: in every `Approve` run the subscription attempt is the first node
interaction; whenever the allowance-grant transaction is dispatched, the
subscription was opened (successfully) at an earlier position of the
interaction sequence. -/
theorem C7_subscription_precedes_grant_dispatch
    (subRes : Except EthErr Unit) (i : Nat)
    (h : (approveActions subRes).get? i = some EthAction.submitGrant) :
    ∃ j, j < i ∧
      (approveActions subRes).get? j = some EthAction.subscribeApproval ∧
      ∃ u, subRes = Except.ok u := by
  cases subRes with
  | error e =>
    cases i with
    | zero => simp [approveActions] at h
    | succ m => cases m <;> simp [approveActions] at h
  | ok u =>
    cases i with
    | zero => simp [approveActions] at h
    | succ m =>
      cases m with
      | zero => exact ⟨0, Nat.zero_lt_one, rfl, u, rfl⟩
      | succ k => simp [approveActions] at h

/-- Witness for C7: in a successful run the grant dispatch sits at index 1,
after the subscription at index 0. -/
theorem C7_subscription_precedes_grant_dispatch_witness :
    ∃ j, j < 1 ∧
      (approveActions (Except.ok ())).get? j = some EthAction.subscribeApproval ∧
      ∃ u, (Except.ok () : Except EthErr Unit) = Except.ok u :=
  C7_subscription_precedes_grant_dispatch (Except.ok ()) 1 rfl

/-- C8: no panic of a `Transcode` body escapes: both transcoders return a
value through the normal result, a panic is converted to the
`UnrecoverableError` wrapper, an `error` panic value is wrapped directly,
and a non-error panic value is replaced by the generic
unrecoverable-transcoding-failure error before wrapping. -/
theorem C8_transcode_panic_recovered (body : BodyResult) :
    (∀ p, localTranscoderTranscode body ≠ TranscodeResult.propagatedPanic p) ∧
    (∀ p, nvidiaTranscoderTranscode body ≠ TranscodeResult.propagatedPanic p) ∧
    (∀ p, body = .panicked p →
      localTranscoderTranscode body = .returned (.error (recoverFromPanic p)) ∧
        nvidiaTranscoderTranscode body = .returned (.error (recoverFromPanic p))) ∧
    (∀ e, recoverFromPanic (.errVal e) = .unrecoverable e) ∧
    (∀ v, recoverFromPanic (.nonErrVal v) =
      .unrecoverable .genericUnrecoverableFailure) := by
  refine ⟨?_, ?_, ?_, fun e => rfl, fun v => rfl⟩
  · intro p h
    cases body <;> simp [localTranscoderTranscode] at h
  · intro p h
    cases body <;> simp [nvidiaTranscoderTranscode] at h
  · intro p hp
    subst hp
    exact ⟨rfl, rfl⟩

/-- Witness for C8: a non-error panic value yields the wrapped generic
unrecoverable error through the normal result. -/
theorem C8_transcode_panic_recovered_witness :
    localTranscoderTranscode (.panicked (.nonErrVal 0)) =
        TranscodeResult.returned (.error (recoverFromPanic (.nonErrVal 0))) ∧
      nvidiaTranscoderTranscode (.panicked (.nonErrVal 0)) =
        TranscodeResult.returned (.error (recoverFromPanic (.nonErrVal 0))) :=
  (C8_transcode_panic_recovered (.panicked (.nonErrVal 0))).2.2.1 (.nonErrVal 0) rfl

/-- Helper for C10: the base-10 accumulator fold computes `Nat.ofDigits`
of the reversed digit list. -/
lemma foldl_base10_eq_ofDigits (l : List Nat) (acc : Nat) :
    l.foldl (fun a d => a * 10 + d) acc =
      Nat.ofDigits 10 l.reverse + acc * 10 ^ l.length := by
  induction l generalizing acc with
  | nil => simp
  | cons d t ih =>
    simp only [List.foldl_cons, List.reverse_cons, List.length_cons]
    rw [ih (acc * 10 + d), Nat.ofDigits_append]
    simp [Nat.ofDigits]
    ring

/-- Helper for C10: `parseUint64` succeeds exactly on a non-empty all-digit
input whose base-10 value fits in 64 bits, and returns that value. -/
lemma parseUint64_ok_iff (s : List Char) (n : Nat) :
    parseUint64 s = Except.ok n ↔
      s ≠ [] ∧ (∀ c ∈ s, c.isDigit = true) ∧
        n = Nat.ofDigits 10 ((s.map fun c => c.toNat - 48).reverse) ∧ n < 2 ^ 64 := by
  unfold parseUint64
  by_cases h0 : s = []
  · simp [h0]
  · rw [if_neg h0]
    have hv : s.foldl (fun acc c => acc * 10 + (c.toNat - 48)) 0 =
        Nat.ofDigits 10 ((s.map fun c => c.toNat - 48).reverse) := by
      rw [← List.foldl_map (fun c : Char => c.toNat - 48) (fun a d => a * 10 + d)]
      rw [foldl_base10_eq_ofDigits]
      simp
    by_cases hall : s.all Char.isDigit
    · rw [if_pos hall]
      simp only [hv]
      by_cases hlt : Nat.ofDigits 10 ((s.map fun c => c.toNat - 48).reverse) < 2 ^ 64
      · simp only [if_pos hlt]
        constructor
        · intro h
          have hn : Nat.ofDigits 10 ((s.map fun c => c.toNat - 48).reverse) = n := by
            simpa using h
          subst hn
          exact ⟨h0, List.all_eq_true.mp hall, rfl, hlt⟩
        · rintro ⟨-, -, hn, -⟩
          rw [hn]
      · simp only [if_neg hlt]
        constructor
        · intro h
          simp at h
        · rintro ⟨-, -, hn, hn64⟩
          exact absurd (hn ▸ hn64) hlt
    · rw [if_neg hall]
      constructor
      · intro h
        simp at h
      · rintro ⟨-, hdig, -, -⟩
        exact absurd (List.all_eq_true.mpr hdig) hall

/-- C10: `parseURI` rejects URIs with fewer than three `/`-separated parts;
with at least three parts it returns the second-to-last part as the
identifier together with the base-10 unsigned 64-bit value of the portion
of the last part before the first `.`, failing exactly when that parse
fails; and the number parse succeeds exactly on a non-empty all-digit
string whose value fits in 64 bits. -/
theorem C10_parseURI_characterized (uri s : List Char) (n : Nat) :
    ((splitOnChar '/' uri).length < 3 →
      parseURI uri = Except.error URIErr.badURI) ∧
    (3 ≤ (splitOnChar '/' uri).length →
      (∀ m, parseUint64 (((splitOnChar '.'
            (((splitOnChar '/' uri).get?
              ((splitOnChar '/' uri).length - 1)).getD [])).get? 0).getD []) =
          Except.ok m →
        parseURI uri = Except.ok
          ((((splitOnChar '/' uri).get?
            ((splitOnChar '/' uri).length - 2)).getD []), m)) ∧
      (∀ e, parseUint64 (((splitOnChar '.'
            (((splitOnChar '/' uri).get?
              ((splitOnChar '/' uri).length - 1)).getD [])).get? 0).getD []) =
          Except.error e →
        parseURI uri = Except.error (URIErr.numError e))) ∧
    (parseUint64 s = Except.ok n ↔
      s ≠ [] ∧ (∀ c ∈ s, c.isDigit = true) ∧
        n = Nat.ofDigits 10 ((s.map fun c => c.toNat - 48).reverse) ∧
        n < 2 ^ 64) := by
  refine ⟨?_, ?_, parseUint64_ok_iff s n⟩
  · intro h
    unfold parseURI
    rw [if_pos h]
  · intro h3
    constructor
    · intro m hm
      unfold parseURI
      rw [if_neg (Nat.not_lt.mpr h3)]
      simp only [hm]
    · intro e he
      unfold parseURI
      rw [if_neg (Nat.not_lt.mpr h3)]
      simp only [he]

/-- Witness for C10 on the URI `a/b/7.ts`: identifier `b`, sequence
number 7. -/
theorem C10_parseURI_characterized_witness :
    parseURI ['a', '/', 'b', '/', '7', '.', 't', 's'] = Except.ok (['b'], 7) :=
  (C10_parseURI_characterized ['a', '/', 'b', '/', '7', '.', 't', 's']
      ['7'] 7).2.1 (by decide) |>.1 7 (by decide)

end Livepeer
